import Mathlib

/-!
Shallow embedding of `directory_to_markdown.py`.

The program walks a directory tree and emits a single Markdown document
concatenating the contents of selected files.  We model:

* the filesystem as an association list from paths (lists of path segments,
  mirroring Python `Path.parts`) to nodes (regular file with byte size,
  UTF-8 decodability and stored text, or directory);
* `Path.glob` enumeration as the filesystem's entry order filtered to the
  entries strictly below the walk root (direct children only when
  `recursive` is false), so the enumeration order is an explicit input;
* `Path.read_text(encoding='utf-8')`, which opens the file in text mode
  with universal-newline translation: every `\r\n` and every lone `\r`
  in the decoded text becomes `\n`;
* the logging calls that the per-file loop performs (debug for the two
  silent filters, info for a processed file, warning or error for a read
  failure, matching the `except` clauses of the source); the banner
  `logging.info` configuration lines are not modelled as no claim
  concerns them;
* `main` as a function from the filesystem, the configuration and the
  previous contents of the output file to an exit code and the resulting
  output-file contents.
-/

/-- A path is its list of segments, mirroring Python `Path.parts`. -/
abbrev FsPath := List String

/-- A filesystem node: a regular file (with `st_size` in bytes, whether its
bytes decode as UTF-8, and its decoded stored text) or a directory. -/
inductive FSNode where
  | file (size : Nat) (decodable : Bool) (stored : String)
  | dir
  deriving DecidableEq, Repr

/-- The filesystem: an association list from full paths to nodes.  The list
order is also the directory-enumeration (glob) order. -/
structure FileSystem where
  entries : List (FsPath × FSNode)
  deriving DecidableEq, Repr

/-- Look a path up in the filesystem (models `exists` / `is_file` / `is_dir`
/ `stat` / `read_text` all consulting one static filesystem state). -/
def FileSystem.lookup (fs : FileSystem) (p : FsPath) : Option FSNode :=
  (fs.entries.find? (fun e => e.1 == p)).map (fun e => e.2)

/-- Python `path.is_file()` on a lookup result. -/
def isFileNode : Option FSNode → Bool
  | some (.file _ _ _) => true
  | _ => false

/-- Run configuration, from the source's keyword parameters. -/
structure Config where
  directoryPath : FsPath
  fileTypes : List String
  ignoreDirs : List String
  recursive : Bool
  maxFileSizeMb : Nat
  deriving DecidableEq, Repr

/-- Source constant `DEFAULT_IGNORE_DIRS`. -/
def DEFAULT_IGNORE_DIRS : List String :=
  ["node_modules", "__pycache__", ".git", ".vscode", ".idea"]

/-- The default `file_types` set installed when `file_types is None`. -/
def defaultFileTypes : List String :=
  [".py", ".txt", ".md", ".js", ".html", ".css", ".json", ".yaml", ".yml"]

/-- Index of the last `.` in a list of characters, Python `str.rfind('.')`
restricted to the found case. -/
def lastDotIdx : List Char → Option Nat
  | [] => none
  | c :: rest =>
    match lastDotIdx rest with
    | some i => some (i + 1)
    | none => if c == '.' then some 0 else none

/-- Python `PurePath.suffix` of a file name: the part from the last dot on,
empty when the last dot is the first character, the last character, or
absent. -/
def pySuffix (name : String) : String :=
  let cs := name.toList
  match lastDotIdx cs with
  | some i => if 0 < i ∧ i + 1 < cs.length then String.mk (cs.drop i) else ""
  | none => ""

/-- Python `str.lstrip('.')`: drop every leading dot. -/
def lstripDot (s : String) : String :=
  String.mk (s.toList.dropWhile (fun c => c == '.'))

/-- Universal-newline translation performed by text-mode reading in Python:
`\r\n` becomes `\n` and a lone `\r` becomes `\n`. -/
def universalNewlinesAux : List Char → List Char
  | [] => []
  | '\r' :: '\n' :: rest => '\n' :: universalNewlinesAux rest
  | '\r' :: rest => '\n' :: universalNewlinesAux rest
  | c :: rest => c :: universalNewlinesAux rest

/-- Universal-newline translation on strings. -/
def universalNewlines (s : String) : String :=
  String.mk (universalNewlinesAux s.toList)

/-- Source `is_ignored`: true when any segment of `parts` is in
`ignoreDirs`.  Note that `parts` is the full path of the glob result,
including the segments of the walk root itself. -/
def is_ignored (parts : FsPath) (ignoreDirs : List String) : Bool :=
  parts.any (fun part => ignoreDirs.contains part)

/-- The distinct failure kinds of `read_file_safely`, one per raised
exception class: `FileNotFoundError`, `ValueError`, `OSError`,
`UnicodeDecodeError`. -/
inductive ReadError where
  | notFound
  | notAFile
  | tooLarge
  | encodingError
  deriving DecidableEq, Repr

/-- Source `read_file_safely`: check existence, regular-file-ness, size
against `max_size_mb * 1024 * 1024` (strictly greater fails), then decode;
on success return the text read by `read_text` (universal newlines). -/
def read_file_safely (fs : FileSystem) (filePath : FsPath) (maxSizeMb : Nat) :
    Except ReadError String :=
  let maxSizeBytes := maxSizeMb * 1024 * 1024
  match fs.lookup filePath with
  | none => .error .notFound
  | some .dir => .error .notAFile
  | some (.file size decodable stored) =>
    if maxSizeBytes < size then .error .tooLarge
    else if decodable then .ok (universalNewlines stored)
    else .error .encodingError

/-- Logging levels used by the source. -/
inductive LogLevel where
  | debug
  | info
  | warning
  | error
  deriving DecidableEq, Repr

/-- A log entry: its level and the path it concerns. -/
structure LogEntry where
  level : LogLevel
  path : FsPath
  deriving DecidableEq, Repr

/-- The level the caller's `except` clauses log a read failure at:
`FileNotFoundError` and `OSError` and `UnicodeDecodeError` hit
`except (OSError, UnicodeDecodeError)` (warning); `ValueError` raised for
a non-regular file only matches the generic `except Exception` (error). -/
def skipLogLevel : ReadError → LogLevel
  | .notAFile => .error
  | _ => .warning

/-- The log entries emitted inside `read_file_safely` itself before
re-raising: a warning for `UnicodeDecodeError`, nothing for the kinds
raised before the `try` block. -/
def readInnerLogs (e : ReadError) (p : FsPath) : List LogEntry :=
  match e with
  | .encodingError => [⟨.warning, p⟩]
  | _ => []

/-- Whether `p` is strictly below `root` (a proper extension of it). -/
def strictlyUnder (root p : FsPath) : Bool :=
  root.isPrefixOf p && root.length < p.length

/-- Whether the glob pattern selects `p`: `"**/*"` selects every proper
descendant, `"*"` only direct children. -/
def globMatches (root : FsPath) (recursive : Bool) (p : FsPath) : Bool :=
  strictlyUnder root p && (recursive || p.length == root.length + 1)

/-- The paths yielded by `directory_path.glob(pattern)`, in the
filesystem's enumeration order. -/
def globList (fs : FileSystem) (root : FsPath) (recursive : Bool) : List FsPath :=
  (fs.entries.filter (fun e => globMatches root recursive e.1)).map (fun e => e.1)

/-- Python `file_path.name`: the last path segment. -/
def lastName (p : FsPath) : String :=
  (p.getLast?).getD ""

/-- The three filter tests of the loop body, in source order: `is_file()`,
not `is_ignored`, and `suffix in file_types`. -/
def passesFilters (fs : FileSystem) (cfg : Config) (p : FsPath) : Bool :=
  isFileNode (fs.lookup p) &&
  !is_ignored p cfg.ignoreDirs &&
  cfg.fileTypes.contains (pySuffix (lastName p))

/-- Whether the read step of the loop body succeeds for `p`. -/
def readOk (fs : FileSystem) (cfg : Config) (p : FsPath) : Bool :=
  match read_file_safely fs p cfg.maxFileSizeMb with
  | .ok _ => true
  | .error _ => false

/-- Whether `p` gets a section in the output: all three filters pass and
the read succeeds. -/
def accepted (fs : FileSystem) (cfg : Config) (p : FsPath) : Bool :=
  passesFilters fs cfg p && readOk fs cfg p

/-- Python `str(file_path.relative_to(directory_path))`: drop the root's
segments and join the rest with the path separator. -/
def relPath (cfg : Config) (p : FsPath) : String :=
  String.intercalate "/" (p.drop cfg.directoryPath.length)

/-- The fenced-code-block language tag: `file_path.suffix.lstrip('.')`. -/
def fenceTag (p : FsPath) : String :=
  lstripDot (pySuffix (lastName p))

/-- The Markdown section the loop writes for one accepted file: the four
`md_file.write` calls concatenated. -/
def sectionStr (cfg : Config) (p : FsPath) (content : String) : String :=
  "## File: `" ++ relPath cfg p ++ "`\n\n" ++
  ("```" ++ fenceTag p ++ "\n") ++
  content ++
  "\n```\n\n"

/-- The content of the read for `p`, empty when the read fails (only used
at accepted paths). -/
def contentOf (fs : FileSystem) (cfg : Config) (p : FsPath) : String :=
  match read_file_safely fs p cfg.maxFileSizeMb with
  | .ok c => c
  | .error _ => ""

/-- The state threaded through the loop: the output file's contents so far
and the log so far. -/
structure RunAcc where
  output : String
  logs : List LogEntry
  deriving DecidableEq, Repr

/-- One iteration of the `for file_path in directory_path.glob(pattern)`
loop body: skip non-files silently, skip ignored paths and unaccepted
extensions with a debug log, otherwise read and on success append the
section (info log), on failure append only the failure logs. -/
def processEntry (fs : FileSystem) (cfg : Config) (acc : RunAcc) (p : FsPath) : RunAcc :=
  if !isFileNode (fs.lookup p) then acc
  else if is_ignored p cfg.ignoreDirs then
    { acc with logs := acc.logs ++ [⟨.debug, p⟩] }
  else if !cfg.fileTypes.contains (pySuffix (lastName p)) then
    { acc with logs := acc.logs ++ [⟨.debug, p⟩] }
  else
    match read_file_safely fs p cfg.maxFileSizeMb with
    | .ok content =>
      { output := acc.output ++ sectionStr cfg p content,
        logs := acc.logs ++ [⟨.info, p⟩] }
    | .error e =>
      { acc with logs := acc.logs ++ (readInnerLogs e p ++ [⟨skipLogLevel e, p⟩]) }

/-- The top-level heading written immediately after opening the output
file, before any file is considered. -/
def headerStr (cfg : Config) : String :=
  "# Directory Contents: " ++ String.intercalate "/" cfg.directoryPath ++ "\n\n"

/-- The whole `with output_file.open('w')` block: write the header, then
fold the loop body over the glob enumeration. -/
def runLoop (fs : FileSystem) (cfg : Config) : RunAcc :=
  (globList fs cfg.directoryPath cfg.recursive).foldl (processEntry fs cfg)
    { output := headerStr cfg, logs := [] }

/-- The fatal configuration errors raised before the output file is
opened. -/
inductive FatalError where
  | dirNotFound
  | notADirectory
  deriving DecidableEq, Repr

/-- Source `directory_to_markdown`: validate the source directory (raising
before any output is written), then open the output file and run the
loop. -/
def directory_to_markdown (fs : FileSystem) (cfg : Config) :
    Except FatalError RunAcc :=
  match fs.lookup cfg.directoryPath with
  | none => .error .dirNotFound
  | some (.file _ _ _) => .error .notADirectory
  | some .dir => .ok (runLoop fs cfg)

/-- The result of a `main` invocation: the process exit code and the
output file's contents afterwards (`none` when no file exists). -/
structure MainResult where
  exitCode : Nat
  outputFile : Option String
  deriving DecidableEq, Repr

/-- Source `main` after argument parsing: call `directory_to_markdown`;
on any exception log and `exit(1)` leaving the output file as it was, on
success exit 0 with the freshly written document. -/
def mainRun (fs : FileSystem) (cfg : Config) (existingOutput : Option String) :
    MainResult :=
  match directory_to_markdown fs cfg with
  | .error _ => { exitCode := 1, outputFile := existingOutput }
  | .ok acc => { exitCode := 0, outputFile := some acc.output }

/-- What the loop appends to the output for one enumerated path: the full
section when every test and the read succeed, nothing otherwise. -/
def fileOutput (fs : FileSystem) (cfg : Config) (p : FsPath) : String :=
  if passesFilters fs cfg p then
    match read_file_safely fs p cfg.maxFileSizeMb with
    | .ok content => sectionStr cfg p content
    | .error _ => ""
  else ""

/-- What the loop appends to the log for one enumerated path. -/
def fileLogs (fs : FileSystem) (cfg : Config) (p : FsPath) : List LogEntry :=
  if !isFileNode (fs.lookup p) then []
  else if is_ignored p cfg.ignoreDirs then [⟨.debug, p⟩]
  else if !cfg.fileTypes.contains (pySuffix (lastName p)) then [⟨.debug, p⟩]
  else
    match read_file_safely fs p cfg.maxFileSizeMb with
    | .ok _ => [⟨.info, p⟩]
    | .error e => readInnerLogs e p ++ [⟨skipLogLevel e, p⟩]

/-- Concatenation of a list of strings. -/
def joinAll : List String → String
  | [] => ""
  | s :: rest => s ++ joinAll rest

/-- Unfolding lemma for `joinAll` on an empty list. -/
theorem joinAll_nil : joinAll [] = "" := rfl

/-- Unfolding lemma for `joinAll` on a cons. -/
theorem joinAll_cons (s : String) (l : List String) :
    joinAll (s :: l) = s ++ joinAll l := rfl

/-- The enumerated paths that receive a section, in enumeration order. -/
def acceptedFiles (fs : FileSystem) (cfg : Config) : List FsPath :=
  (globList fs cfg.directoryPath cfg.recursive).filter (accepted fs cfg)

/-! ### Concrete fixtures used by counterexamples and witnesses -/

/-- A filesystem holding one small UTF-8 file stored with a Windows line
ending. -/
def fsC1 : FileSystem := ⟨[(["f.txt"], .file 4 true "a\r\nb")]⟩

/-- A filesystem holding one small UTF-8 file with Unix line endings. -/
def fsC1w : FileSystem := ⟨[(["g.txt"], .file 4 true "x\ny")]⟩

/-- A source tree whose only candidate file exceeds the 10 MB limit. -/
def fsC2 : FileSystem :=
  ⟨[(["r"], .dir), (["r", "big.py"], .file 11000000 true "x")]⟩

/-- Default-flavoured configuration rooted at `r`. -/
def cfgC2 : Config := ⟨["r"], defaultFileTypes, DEFAULT_IGNORE_DIRS, true, 10⟩

/-- A walk root that itself lives inside a directory named
`node_modules`; the tree holds one ordinary Python file. -/
def fsC3 : FileSystem :=
  ⟨[(["node_modules", "proj"], .dir),
    (["node_modules", "proj", "a.py"], .file 2 true "hi")]⟩

/-- Configuration whose source directory path contains an ignored name
above the walk root. -/
def cfgC3 : Config :=
  ⟨["node_modules", "proj"], defaultFileTypes, DEFAULT_IGNORE_DIRS, true, 10⟩

/-- The empty filesystem: no path exists. -/
def fsC4 : FileSystem := ⟨[]⟩

/-- Configuration pointing at a non-existent source directory. -/
def cfgC4 : Config := ⟨["nope"], defaultFileTypes, DEFAULT_IGNORE_DIRS, true, 10⟩

/-- A tree with a Python file inside a `node_modules` subdirectory and a
file with an unaccepted extension at the top. -/
def fsC5 : FileSystem :=
  ⟨[(["r"], .dir),
    (["r", "node_modules"], .dir),
    (["r", "node_modules", "c.py"], .file 2 true "hi"),
    (["r", "b.bin"], .file 2 true "bb")]⟩

/-- Default-flavoured configuration rooted at `r`, for the filter tests. -/
def cfgC5 : Config := ⟨["r"], defaultFileTypes, DEFAULT_IGNORE_DIRS, true, 10⟩

/-- A tree with one accepted Python file and one file skipped by
extension. -/
def fsC7 : FileSystem :=
  ⟨[(["r"], .dir),
    (["r", "a.py"], .file 2 true "hi"),
    (["r", "b.bin"], .file 2 true "no")]⟩

/-- Default-flavoured configuration rooted at `r`, for the renderer. -/
def cfgC7 : Config := ⟨["r"], defaultFileTypes, DEFAULT_IGNORE_DIRS, true, 10⟩

/-- A minimal valid source tree. -/
def fsC8 : FileSystem := ⟨[(["r"], .dir), (["r", "a.py"], .file 2 true "hi")]⟩

/-- Default-flavoured configuration rooted at `r`, for determinism. -/
def cfgC8 : Config := ⟨["r"], defaultFileTypes, DEFAULT_IGNORE_DIRS, true, 10⟩

/-- A tree whose only candidate file is not UTF-8 decodable. -/
def fsC9 : FileSystem :=
  ⟨[(["r"], .dir), (["r", "e.py"], .file 2 false "")]⟩

/-- Default-flavoured configuration rooted at `r`, for the failed-read
case. -/
def cfgC9 : Config := ⟨["r"], defaultFileTypes, DEFAULT_IGNORE_DIRS, true, 10⟩

/-- A mid-run accumulator with a non-trivial document already written. -/
def accC9 : RunAcc := ⟨"# Directory Contents: r\n\n", []⟩

/-- A start-of-run accumulator for the loop-continuation witness. -/
def accC2 : RunAcc := ⟨"# Directory Contents: r\n\n", []⟩

/-- A tree holding a `.gitignore` file, whose Python suffix is empty. -/
def fsC10 : FileSystem :=
  ⟨[(["r"], .dir), (["r", ".gitignore"], .file 3 true "x")]⟩

/-- Default-flavoured configuration rooted at `r`, for the extensionless
case. -/
def cfgC10 : Config := ⟨["r"], defaultFileTypes, DEFAULT_IGNORE_DIRS, true, 10⟩

/-! ### Helper lemmas -/

/-- One loop iteration appends `fileOutput` to the output and `fileLogs`
to the log. -/
theorem processEntry_split (fs : FileSystem) (cfg : Config) (acc : RunAcc) (p : FsPath) :
    processEntry fs cfg acc p =
      { output := acc.output ++ fileOutput fs cfg p,
        logs := acc.logs ++ fileLogs fs cfg p } := by
  unfold processEntry fileOutput fileLogs passesFilters
  cases hf : isFileNode (fs.lookup p) <;>
    cases hi : is_ignored p cfg.ignoreDirs <;>
      cases ht : cfg.fileTypes.contains (pySuffix (lastName p)) <;>
        cases hr : read_file_safely fs p cfg.maxFileSizeMb <;>
          simp [hf, hi, ht, hr, String.append_empty]

/-- Folding the loop body appends the concatenated per-file outputs and
logs. -/
theorem foldl_processEntry (fs : FileSystem) (cfg : Config) (l : List FsPath) (acc : RunAcc) :
    l.foldl (processEntry fs cfg) acc =
      { output := acc.output ++ joinAll (l.map (fileOutput fs cfg)),
        logs := acc.logs ++ (l.map (fileLogs fs cfg)).flatten } := by
  induction l generalizing acc with
  | nil => simp [joinAll, String.append_empty]
  | cons p rest ih =>
    rw [List.foldl_cons, processEntry_split, ih]
    simp [joinAll, String.append_assoc]

/-- The run's output is the header followed by the per-file outputs in
enumeration order. -/
theorem runLoop_output (fs : FileSystem) (cfg : Config) :
    (runLoop fs cfg).output =
      headerStr cfg ++
        joinAll ((globList fs cfg.directoryPath cfg.recursive).map (fileOutput fs cfg)) := by
  unfold runLoop
  rw [foldl_processEntry]

/-- The run's log is the concatenation of the per-file logs in enumeration
order. -/
theorem runLoop_logs (fs : FileSystem) (cfg : Config) :
    (runLoop fs cfg).logs =
      ((globList fs cfg.directoryPath cfg.recursive).map (fileLogs fs cfg)).flatten := by
  unfold runLoop
  rw [foldl_processEntry]
  simp

/-- An accepted path contributes exactly its section. -/
theorem fileOutput_of_accepted (fs : FileSystem) (cfg : Config) (p : FsPath)
    (h : accepted fs cfg p = true) :
    fileOutput fs cfg p = sectionStr cfg p (contentOf fs cfg p) := by
  unfold accepted readOk at h
  unfold fileOutput contentOf
  cases hp : passesFilters fs cfg p <;>
    cases hr : read_file_safely fs p cfg.maxFileSizeMb <;>
      simp [hp, hr] at h ⊢

/-- A path that is not accepted contributes nothing. -/
theorem fileOutput_of_not_accepted (fs : FileSystem) (cfg : Config) (p : FsPath)
    (h : accepted fs cfg p = false) :
    fileOutput fs cfg p = "" := by
  unfold accepted readOk at h
  unfold fileOutput
  cases hp : passesFilters fs cfg p <;>
    cases hr : read_file_safely fs p cfg.maxFileSizeMb <;>
      simp [hp, hr] at h ⊢

/-- Dropping the non-accepted paths does not change the concatenated
output. -/
theorem joinAll_fileOutput_filter (fs : FileSystem) (cfg : Config) (l : List FsPath) :
    joinAll (l.map (fileOutput fs cfg)) =
      joinAll ((l.filter (accepted fs cfg)).map
        (fun p => sectionStr cfg p (contentOf fs cfg p))) := by
  induction l with
  | nil => rfl
  | cons p rest ih =>
    cases h : accepted fs cfg p with
    | true =>
      rw [List.map_cons, List.filter_cons_of_pos h, List.map_cons,
        joinAll_cons, joinAll_cons, ih, fileOutput_of_accepted fs cfg p h]
    | false =>
      rw [List.map_cons, List.filter_cons_of_neg (by simp [h]), joinAll_cons,
        fileOutput_of_not_accepted fs cfg p h, String.empty_append, ih]

/-- Universal-newline translation is the identity on carriage-return-free
text. -/
theorem universalNewlinesAux_of_noCR (cs : List Char) (h : '\r' ∉ cs) :
    universalNewlinesAux cs = cs := by
  induction cs with
  | nil => rfl
  | cons c rest ih =>
    simp only [List.mem_cons, not_or] at h
    rw [universalNewlinesAux.eq_def]
    split
    next heq => exact absurd heq (by simp)
    next r heq =>
      injection heq with h1 h2
      exact absurd h1.symm h.1
    next r hne heq =>
      injection heq with h1 h2
      exact absurd h1.symm h.1
    next c2 r2 h1 h2 heq =>
      injection heq with hc hr
      subst hc
      subst hr
      rw [ih h.2]

/-- Universal-newline translation is the identity on carriage-return-free
strings. -/
theorem universalNewlines_of_noCR (s : String) (h : '\r' ∉ s.toList) :
    universalNewlines s = s := by
  unfold universalNewlines
  rw [universalNewlinesAux_of_noCR s.toList h]
  cases s
  rfl

/-- Evaluation of `read_file_safely` at a missing path. -/
theorem read_eq_of_none (fs : FileSystem) (p : FsPath) (m : Nat)
    (h : fs.lookup p = none) :
    read_file_safely fs p m = .error .notFound := by
  unfold read_file_safely
  rw [h]

/-- Evaluation of `read_file_safely` at a directory. -/
theorem read_eq_of_dir (fs : FileSystem) (p : FsPath) (m : Nat)
    (h : fs.lookup p = some .dir) :
    read_file_safely fs p m = .error .notAFile := by
  unfold read_file_safely
  rw [h]

/-- Evaluation of `read_file_safely` at an oversized regular file. -/
theorem read_eq_of_large (fs : FileSystem) (p : FsPath) (m sz : Nat)
    (d : Bool) (st : String)
    (h : fs.lookup p = some (.file sz d st)) (hsz : m * 1024 * 1024 < sz) :
    read_file_safely fs p m = .error .tooLarge := by
  unfold read_file_safely
  rw [h]
  simp [hsz]

/-- Evaluation of `read_file_safely` at an undecodable regular file within
the size limit. -/
theorem read_eq_of_undecodable (fs : FileSystem) (p : FsPath) (m sz : Nat)
    (st : String)
    (h : fs.lookup p = some (.file sz false st)) (hsz : sz ≤ m * 1024 * 1024) :
    read_file_safely fs p m = .error .encodingError := by
  unfold read_file_safely
  rw [h]
  simp [Nat.not_lt.mpr hsz]

/-- Evaluation of `read_file_safely` at a decodable regular file within the
size limit. -/
theorem read_eq_of_ok (fs : FileSystem) (p : FsPath) (m sz : Nat)
    (st : String)
    (h : fs.lookup p = some (.file sz true st)) (hsz : sz ≤ m * 1024 * 1024) :
    read_file_safely fs p m = .ok (universalNewlines st) := by
  unfold read_file_safely
  rw [h]
  simp [Nat.not_lt.mpr hsz]

/-- The three filter tests spelled out. -/
theorem passesFilters_split (fs : FileSystem) (cfg : Config) (p : FsPath) :
    passesFilters fs cfg p = true ↔
      (isFileNode (fs.lookup p) = true ∧ is_ignored p cfg.ignoreDirs = false ∧
        cfg.fileTypes.contains (pySuffix (lastName p)) = true) := by
  unfold passesFilters
  cases isFileNode (fs.lookup p) <;> cases is_ignored p cfg.ignoreDirs <;>
    cases cfg.fileTypes.contains (pySuffix (lastName p)) <;> simp

/-- A lookup result that `is_file()` affirms is a regular file node. -/
theorem isFileNode_elim (o : Option FSNode) (h : isFileNode o = true) :
    ∃ sz d st, o = some (.file sz d st) := by
  cases o with
  | none => simp [isFileNode] at h
  | some n =>
    cases n with
    | file sz d st => exact ⟨sz, d, st, rfl⟩
    | dir => simp [isFileNode] at h

/-- The ignore test in terms of plain membership. -/
theorem is_ignored_iff (parts : FsPath) (ignoreDirs : List String) :
    is_ignored parts ignoreDirs = true ↔ ∃ seg ∈ parts, seg ∈ ignoreDirs := by
  simp [is_ignored, List.any_eq_true, List.contains]

/-! ### Claims -/

/-- C1, counterexample: a file that passes every check but is stored with a
Windows line ending `\r\n` is returned with that line ending translated to
`\n`, so the returned string is not the text exactly as stored. -/
theorem c1_counterexample :
    fsC1.lookup ["f.txt"] = some (.file 4 true "a\r\nb") ∧
    read_file_safely fsC1 ["f.txt"] 10 = .ok "a\nb" ∧
    ("a\nb" : String) ≠ "a\r\nb" := by
  refine ⟨rfl, rfl, ?_⟩
  decide

/-- C1, amended: for every file that passes all checks, `read_file_safely`
returns the stored text with universal-newline translation applied (each
`\r\n` and each lone `\r` becomes `\n`) and no other transformation; in
particular, when the stored text contains no carriage return, the returned
string is exactly the stored text, line endings and trailing whitespace
included. -/
theorem c1_amended_read_translates_newlines (fs : FileSystem) (p : FsPath)
    (m sz : Nat) (st : String)
    (hlook : fs.lookup p = some (.file sz true st))
    (hsz : sz ≤ m * 1024 * 1024) :
    read_file_safely fs p m = .ok (universalNewlines st) ∧
    ('\r' ∉ st.toList → read_file_safely fs p m = .ok st) := by
  have hread : read_file_safely fs p m = .ok (universalNewlines st) := by
    unfold read_file_safely
    rw [hlook]
    simp [Nat.not_lt.mpr hsz]
  refine ⟨hread, fun hcr => ?_⟩
  rw [hread, universalNewlines_of_noCR st hcr]

/-- C1, witness for the amended theorem at a concrete carriage-return-free
file. -/
theorem c1_amended_witness :
    fsC1w.lookup ["g.txt"] = some (.file 4 true "x\ny") ∧
    (4 : Nat) ≤ 10 * 1024 * 1024 ∧
    (read_file_safely fsC1w ["g.txt"] 10 = .ok (universalNewlines "x\ny") ∧
      ('\r' ∉ ("x\ny" : String).toList →
        read_file_safely fsC1w ["g.txt"] 10 = .ok "x\ny")) :=
  ⟨rfl, by decide,
    c1_amended_read_translates_newlines fsC1w ["g.txt"] 10 4 "x\ny" rfl (by decide)⟩

/-- C6: `read_file_safely` fails with `notFound` exactly when the path does
not exist, with `notAFile` exactly when it exists but is not a regular
file, with `tooLarge` exactly when it is a regular file whose size exceeds
`maxSizeMb * 1024 * 1024` bytes, with `encodingError` exactly when it is a
regular file within the limit whose bytes are not UTF-8 decodable, and
whenever it does not succeed it fails with exactly one of these kinds. -/
theorem c6_read_failure_taxonomy (fs : FileSystem) (p : FsPath) (m : Nat) :
    (read_file_safely fs p m = .error .notFound ↔ fs.lookup p = none) ∧
    (read_file_safely fs p m = .error .notAFile ↔ fs.lookup p = some .dir) ∧
    (read_file_safely fs p m = .error .tooLarge ↔
      ∃ sz d st, fs.lookup p = some (.file sz d st) ∧ m * 1024 * 1024 < sz) ∧
    (read_file_safely fs p m = .error .encodingError ↔
      ∃ sz st, fs.lookup p = some (.file sz false st) ∧ sz ≤ m * 1024 * 1024) ∧
    ((¬ ∃ s, read_file_safely fs p m = .ok s) →
      ∃ e, read_file_safely fs p m = .error e) := by
  cases hl : fs.lookup p with
  | none =>
    rw [read_eq_of_none fs p m hl]
    refine ⟨by simp [hl], by simp [hl], by simp [hl], by simp [hl],
      fun h => ⟨.notFound, rfl⟩⟩
  | some node =>
    cases node with
    | dir =>
      rw [read_eq_of_dir fs p m hl]
      refine ⟨by simp [hl], by simp [hl], by simp [hl], by simp [hl],
        fun h => ⟨.notAFile, rfl⟩⟩
    | file sz d st =>
      by_cases hsz : m * 1024 * 1024 < sz
      · rw [read_eq_of_large fs p m sz d st hl hsz]
        refine ⟨by simp [hl], by simp [hl], ?_, ?_, fun h => ⟨.tooLarge, rfl⟩⟩
        · simp only [true_iff]
          exact ⟨sz, d, st, rfl, hsz⟩
        · constructor
          · intro h
            exact absurd h (by simp)
          · rintro ⟨sz2, st2, heq, hle⟩
            injection heq with heq2
            injection heq2 with e1 e2 e3
            omega
      · have hle : sz ≤ m * 1024 * 1024 := Nat.not_lt.mp hsz
        cases d with
        | false =>
          rw [read_eq_of_undecodable fs p m sz st hl hle]
          refine ⟨by simp [hl], by simp [hl], ?_, ?_, fun h => ⟨.encodingError, rfl⟩⟩
          · constructor
            · intro h
              exact absurd h (by simp)
            · rintro ⟨sz2, d2, st2, heq, hlt⟩
              injection heq with heq2
              injection heq2 with e1 e2 e3
              omega
          · simp only [true_iff]
            exact ⟨sz, st, rfl, hle⟩
        | true =>
          rw [read_eq_of_ok fs p m sz st hl hle]
          refine ⟨by simp [hl], by simp [hl], ?_, ?_, ?_⟩
          · constructor
            · intro h
              exact absurd h (by simp)
            · rintro ⟨sz2, d2, st2, heq, hlt⟩
              injection heq with heq2
              injection heq2 with e1 e2 e3
              omega
          · constructor
            · intro h
              exact absurd h (by simp)
            · rintro ⟨sz2, st2, heq, hle2⟩
              injection heq with heq2
              injection heq2 with e1 e2 e3
              simp at e2
          · intro h
            exact absurd ⟨universalNewlines st, rfl⟩ h

/-- C2: for every candidate file (one that passed the is-file, ignore and
extension tests) whose read fails, the failure kind is one of the
reachable transient kinds, no section is emitted for it, what is logged
for it is one or more warnings, the traversal continues with the next
file with only the log extended, and the overall run still succeeds. -/
theorem c2_read_failure_nonfatal (fs : FileSystem) (cfg : Config) (p : FsPath)
    (e : ReadError) (acc : RunAcc) (rest : List FsPath)
    (hdir : fs.lookup cfg.directoryPath = some .dir)
    (hpass : passesFilters fs cfg p = true)
    (hread : read_file_safely fs p cfg.maxFileSizeMb = .error e) :
    (e = .tooLarge ∨ e = .encodingError) ∧
    fileOutput fs cfg p = "" ∧
    fileLogs fs cfg p ≠ [] ∧
    (∀ l ∈ fileLogs fs cfg p, l.level = .warning ∧ l.path = p) ∧
    ((p :: rest).foldl (processEntry fs cfg) acc =
      rest.foldl (processEntry fs cfg)
        { acc with logs := acc.logs ++ fileLogs fs cfg p }) ∧
    directory_to_markdown fs cfg = .ok (runLoop fs cfg) := by
  obtain ⟨hfile, hnig, hty⟩ := (passesFilters_split fs cfg p).mp hpass
  obtain ⟨sz, d, st, hl⟩ := isFileNode_elim _ hfile
  have he : e = .tooLarge ∨ e = .encodingError := by
    by_cases hsz : cfg.maxFileSizeMb * 1024 * 1024 < sz
    · left
      have h2 := read_eq_of_large fs p cfg.maxFileSizeMb sz d st hl hsz
      rw [hread] at h2
      exact Except.error.inj h2
    · have hle := Nat.not_lt.mp hsz
      cases d with
      | true =>
        have h2 := read_eq_of_ok fs p cfg.maxFileSizeMb sz st hl hle
        rw [hread] at h2
        exact absurd h2 (by simp)
      | false =>
        right
        have h2 := read_eq_of_undecodable fs p cfg.maxFileSizeMb sz st hl hle
        rw [hread] at h2
        exact Except.error.inj h2
  have hout : fileOutput fs cfg p = "" := by
    unfold fileOutput
    simp [hpass, hread]
  have htym : pySuffix (lastName p) ∈ cfg.fileTypes := by simpa using hty
  have hlogs : fileLogs fs cfg p = readInnerLogs e p ++ [⟨skipLogLevel e, p⟩] := by
    unfold fileLogs
    simp [hfile, hnig, htym, hread]
  refine ⟨he, hout, ?_, ?_, ?_, ?_⟩
  · rw [hlogs]
    rcases he with h | h <;> subst h <;> simp [readInnerLogs]
  · rw [hlogs]
    rcases he with h | h <;> subst h <;>
      simp [readInnerLogs, skipLogLevel]
  · rw [List.foldl_cons, processEntry_split, hout, String.append_empty]
  · unfold directory_to_markdown
    rw [hdir]

/-- C2 witness: the oversized file under `r` fails with `tooLarge`, is
logged as a warning, contributes no section, and the run succeeds. -/
theorem c2_witness :
    fsC2.lookup cfgC2.directoryPath = some .dir ∧
    passesFilters fsC2 cfgC2 ["r", "big.py"] = true ∧
    read_file_safely fsC2 ["r", "big.py"] cfgC2.maxFileSizeMb = .error .tooLarge ∧
    ((ReadError.tooLarge = .tooLarge ∨ ReadError.tooLarge = .encodingError) ∧
      fileOutput fsC2 cfgC2 ["r", "big.py"] = "" ∧
      fileLogs fsC2 cfgC2 ["r", "big.py"] ≠ [] ∧
      (∀ l ∈ fileLogs fsC2 cfgC2 ["r", "big.py"],
        l.level = .warning ∧ l.path = ["r", "big.py"]) ∧
      ((["r", "big.py"] :: ([] : List FsPath)).foldl (processEntry fsC2 cfgC2) accC2 =
        ([] : List FsPath).foldl (processEntry fsC2 cfgC2)
          { accC2 with logs := accC2.logs ++ fileLogs fsC2 cfgC2 ["r", "big.py"] }) ∧
      directory_to_markdown fsC2 cfgC2 = .ok (runLoop fsC2 cfgC2)) :=
  ⟨rfl, rfl, rfl,
    c2_read_failure_nonfatal fsC2 cfgC2 ["r", "big.py"] .tooLarge accC2 [] rfl rfl rfl⟩

/-- C3, counterexample: with the walk rooted at `node_modules/proj`, the
file `a.py` has no path segment from the root of the walk matching an
ignored name, yet the ignore test discards it (the run's output is only
the header), because `is_ignored` inspects all parts of the full path,
including the segment `node_modules` above the walk root. -/
theorem c3_counterexample :
    ((["node_modules", "proj", "a.py"] : FsPath).drop cfgC3.directoryPath.length
      = ["a.py"]) ∧
    (∀ seg ∈ (["a.py"] : List String), seg ∉ cfgC3.ignoreDirs) ∧
    globList fsC3 cfgC3.directoryPath cfgC3.recursive
      = [["node_modules", "proj", "a.py"]] ∧
    isFileNode (fsC3.lookup ["node_modules", "proj", "a.py"]) = true ∧
    passesFilters fsC3 cfgC3 ["node_modules", "proj", "a.py"] = false ∧
    is_ignored ["node_modules", "proj", "a.py"] cfgC3.ignoreDirs = true ∧
    (runLoop fsC3 cfgC3).output = headerStr cfgC3 := by
  refine ⟨rfl, by decide, rfl, rfl, rfl, rfl, ?_⟩
  rfl

/-- C3, amended: a candidate file is discarded by the ignore test if and
only if some segment of its full path — the segments of and above the
walk root included — matches a name in the ignored-directory set, and the
discard is silent: no section is emitted and only debug-level log entries
are produced for it. -/
theorem c3_amended_ignore_checks_full_path (fs : FileSystem) (cfg : Config)
    (p : FsPath) (hfile : isFileNode (fs.lookup p) = true) :
    (is_ignored p cfg.ignoreDirs = true ↔ ∃ seg ∈ p, seg ∈ cfg.ignoreDirs) ∧
    (is_ignored p cfg.ignoreDirs = true →
      fileOutput fs cfg p = "" ∧ ∀ l ∈ fileLogs fs cfg p, l.level = .debug) := by
  refine ⟨is_ignored_iff p cfg.ignoreDirs, fun hig => ⟨?_, ?_⟩⟩
  · unfold fileOutput
    simp [passesFilters, hig]
  · unfold fileLogs
    intro l hl
    simp [hfile, hig] at hl
    rw [hl]

/-- C3, witness for the amended theorem at the concrete tree. -/
theorem c3_amended_witness :
    isFileNode (fsC3.lookup ["node_modules", "proj", "a.py"]) = true ∧
    ((is_ignored ["node_modules", "proj", "a.py"] cfgC3.ignoreDirs = true ↔
        ∃ seg ∈ (["node_modules", "proj", "a.py"] : FsPath),
          seg ∈ cfgC3.ignoreDirs) ∧
      (is_ignored ["node_modules", "proj", "a.py"] cfgC3.ignoreDirs = true →
        fileOutput fsC3 cfgC3 ["node_modules", "proj", "a.py"] = "" ∧
        ∀ l ∈ fileLogs fsC3 cfgC3 ["node_modules", "proj", "a.py"],
          l.level = .debug)) :=
  ⟨rfl, c3_amended_ignore_checks_full_path fsC3 cfgC3
    ["node_modules", "proj", "a.py"] rfl⟩

/-- C4: when the source directory path does not exist, or exists but is a
regular file rather than a directory, `directory_to_markdown` fails before
constructing any output, and the process exits with code 1 leaving the
output file exactly as it was (in particular none is created when none
existed). -/
theorem c4_invalid_source_fatal (fs : FileSystem) (cfg : Config)
    (prev : Option String)
    (h : fs.lookup cfg.directoryPath = none ∨
      ∃ sz d st, fs.lookup cfg.directoryPath = some (.file sz d st)) :
    (∃ err, directory_to_markdown fs cfg = .error err) ∧
    mainRun fs cfg prev = { exitCode := 1, outputFile := prev } := by
  rcases h with h | ⟨sz, d, st, h⟩
  · have hd : directory_to_markdown fs cfg = .error .dirNotFound := by
      unfold directory_to_markdown
      rw [h]
    refine ⟨⟨.dirNotFound, hd⟩, ?_⟩
    unfold mainRun
    rw [hd]
  · have hd : directory_to_markdown fs cfg = .error .notADirectory := by
      unfold directory_to_markdown
      rw [h]
    refine ⟨⟨.notADirectory, hd⟩, ?_⟩
    unfold mainRun
    rw [hd]

/-- C4, witness: a missing source directory with a pre-existing output
file `old` exits 1 and leaves `old` untouched. -/
theorem c4_witness :
    (fsC4.lookup cfgC4.directoryPath = none ∨
      ∃ sz d st, fsC4.lookup cfgC4.directoryPath = some (.file sz d st)) ∧
    ((∃ err, directory_to_markdown fsC4 cfgC4 = .error err) ∧
      mainRun fsC4 cfgC4 (some "old") =
        { exitCode := 1, outputFile := some "old" }) :=
  ⟨Or.inl rfl, c4_invalid_source_fatal fsC4 cfgC4 (some "old") (Or.inl rfl)⟩

/-- C5: a file whose path contains a segment equal to an ignored-directory
name, or whose extension is not in the accepted set, is never accepted and
contributes no section to the output document. -/
theorem c5_filtered_files_absent (fs : FileSystem) (cfg : Config) (p : FsPath)
    (h : (∃ seg ∈ p, seg ∈ cfg.ignoreDirs) ∨
      pySuffix (lastName p) ∉ cfg.fileTypes) :
    fileOutput fs cfg p = "" ∧ accepted fs cfg p = false ∧
    p ∉ acceptedFiles fs cfg := by
  have hpf : passesFilters fs cfg p = false := by
    rcases h with hig | hty
    · have h1 : is_ignored p cfg.ignoreDirs = true :=
        (is_ignored_iff p cfg.ignoreDirs).mpr hig
      simp [passesFilters, h1]
    · have h1 : cfg.fileTypes.contains (pySuffix (lastName p)) = false := by
        simpa using hty
      simp [passesFilters, h1]
      intro h2 h3
      exact hty
  have hacc : accepted fs cfg p = false := by
    simp [accepted, hpf]
  refine ⟨?_, hacc, ?_⟩
  · unfold fileOutput
    simp [hpf]
  · simp [acceptedFiles, List.mem_filter, hacc]

/-- C5, witness: both a file under `node_modules` and a `.bin` file at the
top level are absent from the accepted set and contribute nothing. -/
theorem c5_witness :
    ((∃ seg ∈ (["r", "node_modules", "c.py"] : FsPath),
        seg ∈ cfgC5.ignoreDirs) ∨
      pySuffix (lastName ["r", "node_modules", "c.py"]) ∉ cfgC5.fileTypes) ∧
    (fileOutput fsC5 cfgC5 ["r", "node_modules", "c.py"] = "" ∧
      accepted fsC5 cfgC5 ["r", "node_modules", "c.py"] = false ∧
      ["r", "node_modules", "c.py"] ∉ acceptedFiles fsC5 cfgC5) :=
  ⟨Or.inl (by decide),
    c5_filtered_files_absent fsC5 cfgC5 ["r", "node_modules", "c.py"]
      (Or.inl (by decide))⟩

/-- C7: when the source directory is valid the run succeeds, and the
rendered document is exactly the single top-level heading naming the
source directory (present even when zero files are accepted) followed
by, for each accepted file in enumeration order: a second-level heading
with the file's path relative to the source directory, a fenced code
block whose language tag is the file's extension with its leading
separator stripped, the read content, the closing fence, and a blank
separator line between sections. -/
theorem c7_document_structure (fs : FileSystem) (cfg : Config)
    (hdir : fs.lookup cfg.directoryPath = some .dir) :
    directory_to_markdown fs cfg = .ok (runLoop fs cfg) ∧
    (runLoop fs cfg).output =
      ("# Directory Contents: " ++ String.intercalate "/" cfg.directoryPath
          ++ "\n\n") ++
        joinAll ((acceptedFiles fs cfg).map (fun p =>
          "## File: `" ++ relPath cfg p ++ "`\n\n" ++
          ("```" ++ lstripDot (pySuffix (lastName p)) ++ "\n") ++
          contentOf fs cfg p ++ "\n```\n\n")) := by
  constructor
  · unfold directory_to_markdown
    rw [hdir]
  · rw [runLoop_output, joinAll_fileOutput_filter]
    rfl

/-- C7, witness at a tree with one accepted file and one extension-skipped
file. -/
theorem c7_witness :
    fsC7.lookup cfgC7.directoryPath = some .dir ∧
    (directory_to_markdown fsC7 cfgC7 = .ok (runLoop fsC7 cfgC7) ∧
      (runLoop fsC7 cfgC7).output =
        ("# Directory Contents: "
            ++ String.intercalate "/" cfgC7.directoryPath ++ "\n\n") ++
          joinAll ((acceptedFiles fsC7 cfgC7).map (fun p =>
            "## File: `" ++ relPath cfgC7 p ++ "`\n\n" ++
            ("```" ++ lstripDot (pySuffix (lastName p)) ++ "\n") ++
            contentOf fsC7 cfgC7 p ++ "\n```\n\n"))) :=
  ⟨rfl, c7_document_structure fsC7 cfgC7 rfl⟩

/-- C8: the run is a pure function of the configuration and the
filesystem state (which carries the enumeration order): two runs with
identical configuration over an unchanged source tree return identical
results and byte-identical output documents. -/
theorem c8_run_deterministic (fs1 fs2 : FileSystem) (cfg1 cfg2 : Config)
    (hfs : fs1 = fs2) (hcfg : cfg1 = cfg2) :
    directory_to_markdown fs1 cfg1 = directory_to_markdown fs2 cfg2 ∧
    (runLoop fs1 cfg1).output = (runLoop fs2 cfg2).output := by
  subst hfs
  subst hcfg
  exact ⟨rfl, rfl⟩

/-- C8, witness: two identical runs over the same one-file tree. -/
theorem c8_witness :
    fsC8 = fsC8 ∧ cfgC8 = cfgC8 ∧
    (directory_to_markdown fsC8 cfgC8 = directory_to_markdown fsC8 cfgC8 ∧
      (runLoop fsC8 cfgC8).output = (runLoop fsC8 cfgC8).output) :=
  ⟨rfl, rfl, c8_run_deterministic fsC8 fsC8 cfgC8 cfgC8 rfl rfl⟩

/-- C9: when the read step for a path fails, the loop iteration for that
path leaves the output document exactly as it was before the path was
considered — no heading, fence or content fragment of its section is
written. -/
theorem c9_failed_read_emits_nothing (fs : FileSystem) (cfg : Config)
    (p : FsPath) (e : ReadError) (acc : RunAcc)
    (hread : read_file_safely fs p cfg.maxFileSizeMb = .error e) :
    (processEntry fs cfg acc p).output = acc.output := by
  rw [processEntry_split]
  show acc.output ++ fileOutput fs cfg p = acc.output
  have h0 : fileOutput fs cfg p = "" := by
    unfold fileOutput
    cases hp : passesFilters fs cfg p <;> simp [hp, hread]
  rw [h0, String.append_empty]

/-- C9, witness: the undecodable file leaves the mid-run document
unchanged. -/
theorem c9_witness :
    read_file_safely fsC9 ["r", "e.py"] cfgC9.maxFileSizeMb
      = .error .encodingError ∧
    (processEntry fsC9 cfgC9 accC9 ["r", "e.py"]).output = accC9.output :=
  ⟨rfl, c9_failed_read_emits_nothing fsC9 cfgC9 ["r", "e.py"]
    .encodingError accC9 rfl⟩

/-- C10: a candidate file whose name has an empty Python suffix (for
example `.gitignore`, a single leading dot and no other dot) is accepted
if and only if the empty string is a member of the accepted-extension
set; under the default accepted set such a file is never accepted and
contributes no section. -/
theorem c10_extensionless_needs_empty_ext (fs : FileSystem) (cfg : Config)
    (p : FsPath)
    (hsuf : pySuffix (lastName p) = "")
    (hfile : isFileNode (fs.lookup p) = true)
    (hnig : is_ignored p cfg.ignoreDirs = false)
    (hread : readOk fs cfg p = true) :
    (accepted fs cfg p = true ↔ "" ∈ cfg.fileTypes) ∧
    (cfg.fileTypes = defaultFileTypes →
      accepted fs cfg p = false ∧ fileOutput fs cfg p = "") := by
  have hiff : accepted fs cfg p = true ↔ "" ∈ cfg.fileTypes := by
    unfold accepted
    rw [hread, Bool.and_true, passesFilters_split]
    simp [hfile, hnig, hsuf]
  refine ⟨hiff, fun hdef => ?_⟩
  have hne : "" ∉ cfg.fileTypes := by
    rw [hdef]
    decide
  have hacc : accepted fs cfg p = false := by
    cases hacc2 : accepted fs cfg p
    · rfl
    · exact absurd (hiff.mp hacc2) hne
  exact ⟨hacc, fileOutput_of_not_accepted fs cfg p hacc⟩

/-- C10, witness at a readable `.gitignore` under the default accepted
set. -/
theorem c10_witness :
    pySuffix (lastName ["r", ".gitignore"]) = "" ∧
    isFileNode (fsC10.lookup ["r", ".gitignore"]) = true ∧
    is_ignored ["r", ".gitignore"] cfgC10.ignoreDirs = false ∧
    readOk fsC10 cfgC10 ["r", ".gitignore"] = true ∧
    ((accepted fsC10 cfgC10 ["r", ".gitignore"] = true ↔
        "" ∈ cfgC10.fileTypes) ∧
      (cfgC10.fileTypes = defaultFileTypes →
        accepted fsC10 cfgC10 ["r", ".gitignore"] = false ∧
        fileOutput fsC10 cfgC10 ["r", ".gitignore"] = "")) :=
  ⟨rfl, rfl, rfl, rfl,
    c10_extensionless_needs_empty_ext fsC10 cfgC10 ["r", ".gitignore"]
      rfl rfl rfl rfl⟩
